import Mathlib

/-!
Shallow embedding of the SoundShare front-end logic core
(`src/lib/playlist-types.ts`, the queue column component, and the
query-builder conversion helpers), together with theorems settling the
frozen claims about the filter predicate model, queue generation, the
query-tree/backend conversion, and the playback sequencer.

Conventions of the embedding:
* JavaScript numbers that carry audio features are modelled as `ℚ`
  (all comparisons in the source are order comparisons, never float
  arithmetic); years and song ids are integers in the source data model.
* `null`/`undefined` string and number fields are modelled as `Option`.
* JavaScript truthiness of a string field (`if (filters.artist && ...)`)
  is "defined and non-empty"; of a number field, "defined and non-zero".
* The early-`return false` chain of the `songs.filter` callback in
  `FilterProcessor.applyFilters` is written as the conjunction of the
  negated guard conditions, one conjunct per `if` statement, in source
  order.
-/

namespace SoundShare

/-- Character-list prefix test, `==`-based like JavaScript `String` search. -/
def isPrefixOfCL : List Char → List Char → Bool
  | [], _ => true
  | _ :: _, [] => false
  | a :: as, b :: bs => a == b && isPrefixOfCL as bs

/-- Character-list substring test: does the second list contain the first? -/
def isSubListOfCL (needle : List Char) : List Char → Bool
  | [] => needle.isEmpty
  | b :: bs => isPrefixOfCL needle (b :: bs) || isSubListOfCL needle bs

/-- JavaScript `hay.toLowerCase().includes(needle.toLowerCase())` on
strings, working on the code-point lists; `toLowerCase` is modelled as
per-character lowering (which is also what `String.toLower` does). -/
def jsIncludesLower (hay needle : String) : Bool :=
  isSubListOfCL (needle.data.map Char.toLower) (hay.data.map Char.toLower)

/-- JavaScript truthiness of an optional string value. -/
def truthyStr : Option String → Bool
  | none => false
  | some s => !(s == "")

/-- A tag attached to a song (only the fields the filter logic reads). -/
structure Tag where
  id : Int
  name : String
deriving DecidableEq, Repr

/-- A catalog song record (`Song` in `src/lib/api.ts`), restricted to the
fields read by `FilterProcessor`. -/
structure Song where
  id : Int
  display_name : String
  artist : Option String
  album : Option String
  genre : Option String
  year : Option Int
  energy : Option ℚ
  valence : Option ℚ
  danceability : Option ℚ
  tempo : Option ℚ
  tags : List Tag
deriving DecidableEq, Repr

/-- The simple filter record (`SongsFilters` in `src/lib/api.ts`),
restricted to the keys read by `FilterProcessor.applyFilters`. -/
structure SongsFilters where
  tag : Option String := none
  tag1 : Option String := none
  tag2 : Option String := none
  artist : Option String := none
  genre : Option String := none
  album : Option String := none
  year : Option Int := none
  energy_min : Option ℚ := none
  energy_max : Option ℚ := none
  valence_min : Option ℚ := none
  valence_max : Option ℚ := none
  danceability_min : Option ℚ := none
  danceability_max : Option ℚ := none
  tempo_min : Option ℚ := none
  tempo_max : Option ℚ := none
deriving DecidableEq, Repr

/-- `song.field?.toLowerCase().includes(fv.toLowerCase())`: a `null`
song field is optional-chained to `undefined`, which is falsy. -/
def includesLower (sv : Option String) (fv : String) : Bool :=
  match sv with
  | none => false
  | some a => jsIncludesLower a fv

/-- Guard `filters.f && !song.f?.toLowerCase().includes(filters.f.toLowerCase())`
for the free-text fields (artist, album, genre). -/
def textFilterFails (fv : Option String) (sv : Option String) : Bool :=
  match fv with
  | none => false
  | some fa => !(fa == "") && !(includesLower sv fa)

/-- Guard `filters.year && song.year !== filters.year` (strict inequality:
a `null` song year never equals a number). -/
def yearFilterFails (fv : Option Int) (sy : Option Int) : Bool :=
  match fv with
  | none => false
  | some y => !(y == 0) && !(sy == some y)

/-- Guard `filters.tagN && !song.tags.some(tag => tag.name === filters.tagN)`. -/
def tagFilterFails (fv : Option String) (tags : List Tag) : Bool :=
  match fv with
  | none => false
  | some t => !(t == "") && !(tags.any (fun tg => tg.name == t))

/-- Guard `filters.x_min !== undefined && (song.x === null || song.x < filters.x_min)`. -/
def minFilterFails (bound : Option ℚ) (v : Option ℚ) : Bool :=
  match bound with
  | none => false
  | some b =>
    match v with
    | none => true
    | some x => decide (x < b)

/-- Guard `filters.x_max !== undefined && (song.x === null || song.x > filters.x_max)`. -/
def maxFilterFails (bound : Option ℚ) (v : Option ℚ) : Bool :=
  match bound with
  | none => false
  | some b =>
    match v with
    | none => true
    | some x => decide (b < x)

/-- The body of the `songs.filter` callback of
`FilterProcessor.applyFilters`: each conjunct is the negation of one
early-`return false` guard, in source order. -/
def songMatches (filters : SongsFilters) (song : Song) : Bool :=
  !(textFilterFails filters.artist song.artist) &&
  !(textFilterFails filters.album song.album) &&
  !(textFilterFails filters.genre song.genre) &&
  !(yearFilterFails filters.year song.year) &&
  !(tagFilterFails filters.tag1 song.tags) &&
  !(tagFilterFails filters.tag2 song.tags) &&
  !(tagFilterFails filters.tag song.tags) &&
  !(minFilterFails filters.energy_min song.energy) &&
  !(maxFilterFails filters.energy_max song.energy) &&
  !(minFilterFails filters.valence_min song.valence) &&
  !(maxFilterFails filters.valence_max song.valence) &&
  !(minFilterFails filters.danceability_min song.danceability) &&
  !(maxFilterFails filters.danceability_max song.danceability) &&
  !(minFilterFails filters.tempo_min song.tempo) &&
  !(maxFilterFails filters.tempo_max song.tempo)

namespace FilterProcessor

/-- `FilterProcessor.applyFilters` from `src/lib/playlist-types.ts`. -/
def applyFilters (songs : List Song) (filters : SongsFilters) : List Song :=
  songs.filter (fun song => songMatches filters song)

end FilterProcessor

/-- A saved filter inside a playlist (`PlaylistFilter`). -/
structure PlaylistFilter where
  id : String
  name : String
  filters : SongsFilters
deriving DecidableEq, Repr

/-- A playlist: ordered saved filters plus ordered manual songs. -/
structure Playlist where
  id : Int
  name : String
  filters : List PlaylistFilter
  manual_songs : List Song
deriving DecidableEq, Repr

/-- Provenance of a queue item (`added_via: 'filter' | 'manual'`). -/
inductive AddedVia where
  | filter
  | manual
deriving DecidableEq, Repr

/-- A derived queue entry (`QueueItem`). -/
structure QueueItem where
  id : String
  song : Song
  position : Nat
  is_current : Bool
  added_via : AddedVia
  filter_id : Option String
deriving DecidableEq, Repr

namespace FilterProcessor

/-- One of the inner `forEach` loops of `generateQueue`, written as
recursion over the song list: append each song that is not already
present (by song id, the `queueItems.find` existence check) to the
queue, stamping provenance, filter id, and the running position counter.
The state is the pair (queueItems, position). -/
def addSongsToQueue (via : AddedVia) (fid : Option String) :
    List Song → List QueueItem × Nat → List QueueItem × Nat
  | [], st => st
  | song :: rest, st =>
    addSongsToQueue via fid rest
      (if st.1.any (fun item => item.song.id == song.id) then st
       else
         (st.1 ++ [{ id := toString song.id ++ "-" ++ toString st.2
                     song := song
                     position := st.2
                     is_current := false
                     added_via := via
                     filter_id := fid : QueueItem }],
          st.2 + 1))

/-- The outer `playlist.filters.forEach` loop of `generateQueue`. -/
def addFilterSongs (allSongs : List Song) :
    List PlaylistFilter → List QueueItem × Nat → List QueueItem × Nat
  | [], st => st
  | f :: fs, st =>
    addFilterSongs allSongs fs
      (addSongsToQueue AddedVia.filter (some f.id) (applyFilters allSongs f.filters) st)

/-- `FilterProcessor.generateQueue` from `src/lib/playlist-types.ts`:
songs matching each saved filter first (in playlist-filter order), then
the manual songs, deduplicated by song id with a running position counter. -/
def generateQueue (playlist : Playlist) (allSongs : List Song) : List QueueItem :=
  (addSongsToQueue AddedVia.manual none playlist.manual_songs
    (addFilterSongs allSongs playlist.filters ([], 0))).1

end FilterProcessor

/-! ### Reference construction of the queue, following the spec's words

The spec (§4.3) describes the queue as: scan saved filters in playlist
order, appending each matching song not already present, then the manual
songs not already present; positions are the sequential index of each
item. We build the provenance-stamped entry list first and then number
it, so that "each item's position equals its index" is part of the
construction. -/

/-- A queue entry before position numbering: the song, its provenance,
and the originating filter id (if any). -/
abbrev QEntry := Song × AddedVia × Option String

/-- Spec-side accumulation: append each song whose id is not already in
the accumulated entry list. -/
def addEntries (via : AddedVia) (fid : Option String) :
    List Song → List QEntry → List QEntry
  | [], acc => acc
  | song :: rest, acc =>
    addEntries via fid rest
      (if acc.any (fun e => e.1.id == song.id) then acc
       else acc ++ [(song, via, fid)])

/-- Spec-side accumulation over the playlist's saved filters, in order. -/
def filterEntries (allSongs : List Song) :
    List PlaylistFilter → List QEntry → List QEntry
  | [], acc => acc
  | f :: fs, acc =>
    filterEntries allSongs fs
      (addEntries AddedVia.filter (some f.id) (FilterProcessor.applyFilters allSongs f.filters) acc)

/-- The deduplicated entry list of a playlist: filters in playlist order,
then manual songs. -/
def queueEntries (playlist : Playlist) (allSongs : List Song) : List QEntry :=
  addEntries AddedVia.manual none playlist.manual_songs
    (filterEntries allSongs playlist.filters [])

/-- Turn the entry at position `pos` into a `QueueItem`. -/
def mkQueueItem (pos : Nat) (e : QEntry) : QueueItem :=
  { id := toString e.1.id ++ "-" ++ toString pos
    song := e.1
    position := pos
    is_current := false
    added_via := e.2.1
    filter_id := e.2.2 }

/-- Number an entry list with sequential positions starting at `n`. -/
def withPositions (n : Nat) : List QEntry → List QueueItem
  | [] => []
  | e :: es => mkQueueItem n e :: withPositions (n + 1) es

/-- The queue as the spec describes it: the deduplicated entry list,
numbered sequentially from 0 (so every item's position is its index). -/
def generateQueueSpec (playlist : Playlist) (allSongs : List Song) : List QueueItem :=
  withPositions 0 (queueEntries playlist allSongs)

/-! ### Playback sequencer (`QueueColumn` component + `MusicProvider`) -/

/-- `repeat` member of `PlaylistOptions` (the source field is named
`repeat`, a Lean keyword, so the Lean field is `repeatMode`). -/
inductive RepeatMode where
  | none
  | all
  | one
deriving DecidableEq, Repr

/-- `PlaylistOptions` from `src/lib/playlist-types.ts`. -/
structure PlaylistOptions where
  shuffle : Bool
  repeatMode : RepeatMode
  autoplay : Bool
deriving DecidableEq, Repr

/-- The combined state the sequencer reads and writes: the queue column's
`queueItems` and `currentPosition` state plus the music context's
`currentSong` / `isPlayerVisible` / `isPlaying` state and the playlist
options. -/
structure SeqState where
  queueItems : List QueueItem
  currentPosition : Nat
  currentSong : Option Song
  isPlayerVisible : Bool
  isPlaying : Bool
  options : PlaylistOptions
deriving DecidableEq, Repr

/-- `playSong` from `src/lib/music-context.tsx`: set the current song,
show the player, start playing. -/
def playSong (s : SeqState) (song : Song) : SeqState :=
  { s with currentSong := some song, isPlayerVisible := true, isPlaying := true }

/-- JavaScript `Array.findIndex`, with `none` for the not-found result
`-1`. -/
def jsFindIndex {α : Type} (p : α → Bool) : List α → Option Nat
  | [] => none
  | x :: xs => if p x then some 0 else (jsFindIndex p xs).map (fun i => i + 1)

/-- `playQueueItem` from the queue column: play the song, then set the
position to the item's index in the queue (`findIndex` by item id; a
missing item, `findIndex = -1`, leaves the position untouched). -/
def playQueueItem (s : SeqState) (item : QueueItem) : SeqState :=
  let s1 := playSong s item.song
  match jsFindIndex (fun qi => qi.id == item.id) s.queueItems with
  | some i => { s1 with currentPosition := i }
  | none => s1

/-- `playNext` from the queue column. The `rand` argument supplies the
value of `Math.floor(Math.random() * queueItems.length)` for the shuffle
branch (modelled as `rand % length`, which like the source is always a
valid index of a non-empty queue). -/
def playNext (s : SeqState) (rand : Nat) : SeqState :=
  if s.queueItems.length = 0 then s
  else
    let step : Option Nat :=
      if s.options.repeatMode = RepeatMode.one then some s.currentPosition
      else if s.queueItems.length ≤ s.currentPosition + 1 then
        if s.options.repeatMode = RepeatMode.all then some 0
        else none -- End of queue
      else some (s.currentPosition + 1)
    match step with
    | none => s
    | some n =>
      let nextIndex :=
        if s.options.shuffle && !(s.options.repeatMode = RepeatMode.one) then
          rand % s.queueItems.length
        else n
      match s.queueItems[nextIndex]? with
      | some item => playQueueItem s item
      | none => s

/-- `playPrevious` from the queue column. With a `Nat` position, the
source's `prevIndex = currentPosition - 1; if (prevIndex < 0) ...`
underflow test becomes a test for position 0. -/
def playPrevious (s : SeqState) : SeqState :=
  if s.queueItems.length = 0 then s
  else
    let prevIndex : Nat :=
      if s.currentPosition = 0 then
        if s.options.repeatMode = RepeatMode.all then s.queueItems.length - 1
        else 0
      else s.currentPosition - 1
    match s.queueItems[prevIndex]? with
    | some item => playQueueItem s item
    | none => s

/-! ### Query tree model (`convertQueryToJSON` / `convertQueryJSONToRuleGroup`) -/

/-- A JavaScript value as it occurs in a rule's `value: any` slot. -/
inductive JSValue where
  | vUndefined
  | vNull
  | vStr (s : String)
  | vNum (q : ℚ)
  | vBool (b : Bool)
deriving DecidableEq, Repr

/-- A react-querybuilder tree node: either a rule (`RuleType`) or a
nested group (`RuleGroupType`). Synthetic UI node ids are omitted from
the embedding: the conversion functions never read them, and
`convertQueryJSONToRuleGroup` regenerates them freshly via
`generateRuleId`, so they carry no information. -/
inductive RQBNode where
  | rule (field : String) (operator : String) (value : JSValue) (negated : Bool)
  | group (combinator : String) (negated : Bool) (rules : List RQBNode)

/-- A backend rule (`RuleJSON`). -/
structure RuleJSON where
  field : String
  operator : String
  value : JSValue
  negated : Bool
deriving DecidableEq, Repr

/-- The backend query form (`QueryJSON`, matching `query_models.py`). -/
inductive QueryJSON where
  | mk (combinator : String) (negated : Bool) (rules : List RuleJSON) (groups : List QueryJSON)

/-- The `rules` slot of a `QueryJSON`. -/
def QueryJSON.rules : QueryJSON → List RuleJSON
  | .mk _ _ rs _ => rs

/-- The `groups` slot of a `QueryJSON`. -/
def QueryJSON.groups : QueryJSON → List QueryJSON
  | .mk _ _ _ gs => gs

/-- The `combinator` slot of a `QueryJSON`. -/
def QueryJSON.combinator : QueryJSON → String
  | .mk c _ _ _ => c

/-- The `negated` slot of a `QueryJSON`. -/
def QueryJSON.negated : QueryJSON → Bool
  | .mk _ n _ _ => n

/-- The validity test of `processRuleGroup`: a rule is kept unless
`!rule.field || rule.value === undefined || rule.value === null ||
rule.value === ''`. -/
def usableRule (field : String) (value : JSValue) : Bool :=
  !(field == "" || value == JSValue.vUndefined || value == JSValue.vNull
      || value == JSValue.vStr "")

/-- The `forEach` body of `processRuleGroup`, split over the child list:
returns the accumulated (rules, groups) pair. Rules failing
`usableRule` are skipped; every nested group is processed and kept. -/
def processItems : List RQBNode → List RuleJSON × List QueryJSON
  | [] => ([], [])
  | RQBNode.rule f o v n :: rest =>
    let p := processItems rest
    if usableRule f v then ({ field := f, operator := o, value := v, negated := n } :: p.1, p.2)
    else p
  | RQBNode.group c n l :: rest =>
    let inner := processItems l
    let p := processItems rest
    (p.1, QueryJSON.mk c n inner.1 inner.2 :: p.2)

/-- `processRuleGroup` from `src/lib/queryBuilderUtils.ts`, applied to a
group with the given combinator, negation flag and child list. -/
def processRuleGroup (combinator : String) (negated : Bool) (rules : List RQBNode) : QueryJSON :=
  QueryJSON.mk combinator negated (processItems rules).1 (processItems rules).2

/-- `convertQueryToJSON`: `null` exactly when the top-level `rules`
array is empty, otherwise `processRuleGroup`. -/
def convertQueryToJSON (combinator : String) (negated : Bool) (rules : List RQBNode) :
    Option QueryJSON :=
  if rules.isEmpty then none
  else some (processRuleGroup combinator negated rules)

/-- Rebuild a UI rule node from a backend rule (the fresh synthetic id
generated in the source is omitted, as in `RQBNode`). -/
def ruleFromJSON (r : RuleJSON) : RQBNode :=
  RQBNode.rule r.field r.operator r.value r.negated

mutual

/-- `convertQueryJSONToRuleGroup` from `src/components/AdvancedFilterPanel.tsx`:
rebuilds a UI group whose children are the backend rules (in order)
followed by the recursively converted backend groups (in order). -/
def convertQueryJSONToRuleGroup : QueryJSON → RQBNode
  | QueryJSON.mk c n rules groups =>
    RQBNode.group c n (rules.map ruleFromJSON ++ convertGroups groups)

/-- `groups.map(group => convertQueryJSONToRuleGroup(group))`. -/
def convertGroups : List QueryJSON → List RQBNode
  | [] => []
  | g :: gs => convertQueryJSONToRuleGroup g :: convertGroups gs

end

/-- Is this node a rule (as opposed to a nested group)? -/
def isRuleNode : RQBNode → Bool
  | RQBNode.rule _ _ _ _ => true
  | RQBNode.group _ _ _ => false

mutual

/-- The child reordering the backend round trip performs on a fully
usable tree: within each group, rules first (in order), then groups (in
order), recursively. -/
def reorderNode : RQBNode → RQBNode
  | RQBNode.rule f o v n => RQBNode.rule f o v n
  | RQBNode.group c n l => RQBNode.group c n (reorderRules l ++ reorderGroups l)

/-- The rule children of a list, in order. -/
def reorderRules : List RQBNode → List RQBNode
  | [] => []
  | RQBNode.rule f o v n :: xs => RQBNode.rule f o v n :: reorderRules xs
  | RQBNode.group _ _ _ :: xs => reorderRules xs

/-- The group children of a list, recursively reordered, in order. -/
def reorderGroups : List RQBNode → List RQBNode
  | [] => []
  | RQBNode.rule _ _ _ _ :: xs => reorderGroups xs
  | RQBNode.group c n l :: xs => reorderNode (RQBNode.group c n l) :: reorderGroups xs

end

mutual

/-- Every rule in the tree (at any depth) passes `usableRule`. -/
def allUsableNode : RQBNode → Bool
  | RQBNode.rule f _ v _ => usableRule f v
  | RQBNode.group _ _ l => allUsableList l

/-- `allUsableNode` over a child list. -/
def allUsableList : List RQBNode → Bool
  | [] => true
  | x :: xs => allUsableNode x && allUsableList xs

end

mutual

/-- Does the tree contain at least one rule node (at any depth)? -/
def hasRuleNode : RQBNode → Bool
  | RQBNode.rule _ _ _ _ => true
  | RQBNode.group _ _ l => hasRuleList l

/-- `hasRuleNode` over a child list. -/
def hasRuleList : List RQBNode → Bool
  | [] => false
  | x :: xs => hasRuleNode x || hasRuleList xs

end

/-! ## Concrete instances used by scenarios, witnesses and counterexamples -/

/-- A catalog song with no optional data: only id, name and genre. -/
def baseSong : Song :=
  { id := 1, display_name := "A", artist := none, album := none, genre := some "Rock",
    year := none, energy := none, valence := none, danceability := none, tempo := none,
    tags := [] }

/-- Scenario song A: genre Rock, id 1. -/
def songRockA : Song := baseSong

/-- Scenario song B: genre Hard Rock (matches a "Rock" substring filter), id 2. -/
def songRockB : Song := { baseSong with id := 2, display_name := "B", genre := some "Hard Rock" }

/-- Scenario song C: genre Pop, id 3. -/
def songPopC : Song := { baseSong with id := 3, display_name := "C", genre := some "Pop" }

/-- Scenario catalog [A, B, C]. -/
def scenarioCatalog : List Song := [songRockA, songRockB, songPopC]

/-- Scenario playlist: one saved filter `{genre contains "Rock"}` (matching
[A, B] in catalog order) and manual songs [B, C]. -/
def scenarioPlaylist : Playlist :=
  { id := 1, name := "demo",
    filters := [{ id := "rock-filter", name := "Rock", filters := { genre := some "Rock" } }],
    manual_songs := [songRockB, songPopC] }

/-- A song whose year is null. -/
def songNullYear : Song := { baseSong with id := 9, year := none }

/-- A filter whose `year` key holds the (defined but falsy) value 0. -/
def fYearZero : SongsFilters := { year := some 0 }

/-- An inverted energy range: `energy_min = 1 > 0 = energy_max`. -/
def fInvertedEnergy : SongsFilters := { energy_min := some 1, energy_max := some 0 }

/-- A three-item queue used by the sequencer witnesses. -/
def witnessQueue : List QueueItem :=
  [ { id := "1-0", song := songRockA, position := 0, is_current := false,
      added_via := AddedVia.filter, filter_id := some "rock-filter" },
    { id := "2-1", song := songRockB, position := 1, is_current := false,
      added_via := AddedVia.filter, filter_id := some "rock-filter" },
    { id := "3-2", song := songPopC, position := 2, is_current := false,
      added_via := AddedVia.manual, filter_id := none } ]

/-- A sequencer state over `witnessQueue`. -/
def mkSeqState (pos : Nat) (sh : Bool) (r : RepeatMode) : SeqState :=
  { queueItems := witnessQueue, currentPosition := pos, currentSong := none,
    isPlayerVisible := false, isPlaying := false,
    options := { shuffle := sh, repeatMode := r, autoplay := true } }

/-- A sequencer state with an empty queue. -/
def emptySeqState : SeqState :=
  { queueItems := [], currentPosition := 0, currentSong := none,
    isPlayerVisible := false, isPlaying := false,
    options := { shuffle := false, repeatMode := RepeatMode.none, autoplay := true } }

/-- A rule whose value is the empty string (skipped by the conversion). -/
def emptyValueRule : RQBNode := RQBNode.rule "album" "contains" (JSValue.vStr "") false

/-- A fully usable rule. -/
def daftRule : RQBNode := RQBNode.rule "artist" "contains" (JSValue.vStr "Daft") false

/-! ## Lemmas: the generated queue refines the spec construction -/

theorem withPositions_length (n : Nat) (l : List QEntry) :
    (withPositions n l).length = l.length := by
  induction l generalizing n with
  | nil => rfl
  | cons e es ih => simp [withPositions, ih]

theorem withPositions_append (n : Nat) (l : List QEntry) (e : QEntry) :
    withPositions n (l ++ [e]) = withPositions n l ++ [mkQueueItem (n + l.length) e] := by
  induction l generalizing n with
  | nil => simp [withPositions]
  | cons x xs ih =>
    show mkQueueItem n x :: withPositions (n + 1) (xs ++ [e]) = _
    rw [ih]
    have h : n + 1 + xs.length = n + (x :: xs).length := by simp; omega
    rw [h]
    simp [withPositions]

theorem withPositions_any (n : Nat) (l : List QEntry) (sid : Int) :
    ((withPositions n l).any fun item => item.song.id == sid)
      = (l.any fun e => e.1.id == sid) := by
  induction l generalizing n with
  | nil => rfl
  | cons e es ih => simp [withPositions, mkQueueItem, ih]

theorem withPositions_map_songId (n : Nat) (l : List QEntry) :
    ((withPositions n l).map fun i => i.song.id) = l.map fun e => e.1.id := by
  induction l generalizing n with
  | nil => rfl
  | cons e es ih => simp [withPositions, mkQueueItem, ih]

theorem withPositions_map_position (n : Nat) (l : List QEntry) :
    ((withPositions n l).map fun i => i.position) = List.range' n l.length := by
  induction l generalizing n with
  | nil => rfl
  | cons e es ih => simp [withPositions, mkQueueItem, ih, List.range'_succ]

theorem addSongsToQueue_eq (via : AddedVia) (fid : Option String) (songs : List Song) :
    ∀ acc : List QEntry,
      FilterProcessor.addSongsToQueue via fid songs (withPositions 0 acc, acc.length)
        = (withPositions 0 (addEntries via fid songs acc),
           (addEntries via fid songs acc).length) := by
  induction songs with
  | nil => intro acc; rfl
  | cons s rest ih =>
    intro acc
    simp only [FilterProcessor.addSongsToQueue, addEntries]
    by_cases h : (acc.any fun e => e.1.id == s.id) = true
    · have hq : ((withPositions 0 acc).any fun item => item.song.id == s.id) = true := by
        rw [withPositions_any]; exact h
      simp only [hq, h, if_true]
      exact ih acc
    · have hb : (acc.any fun e => e.1.id == s.id) = false := by
        exact Bool.not_eq_true _ |>.mp h
      have hq : ((withPositions 0 acc).any fun item => item.song.id == s.id) = false := by
        rw [withPositions_any]; exact hb
      have key : (withPositions 0 acc ++
            [{ id := toString s.id ++ "-" ++ toString acc.length, song := s,
               position := acc.length, is_current := false, added_via := via,
               filter_id := fid : QueueItem }],
            acc.length + 1)
          = ((withPositions 0 (acc ++ [(s, via, fid)]) : List QueueItem),
             (acc ++ [(s, via, fid)]).length) := by
      -- the freshly pushed item is exactly the entry numbered with the next position
        rw [withPositions_append]
        simp [mkQueueItem]
      simp only [hq, hb, Bool.false_eq_true, if_false]
      rw [key]
      exact ih (acc ++ [(s, via, fid)])

theorem addFilterSongs_eq (allSongs : List Song) (fs : List PlaylistFilter) :
    ∀ acc : List QEntry,
      FilterProcessor.addFilterSongs allSongs fs (withPositions 0 acc, acc.length)
        = (withPositions 0 (filterEntries allSongs fs acc),
           (filterEntries allSongs fs acc).length) := by
  induction fs with
  | nil => intro acc; rfl
  | cons f fs ih =>
    intro acc
    simp only [FilterProcessor.addFilterSongs, filterEntries]
    rw [addSongsToQueue_eq]
    exact ih _

theorem generateQueue_eq_spec (p : Playlist) (allSongs : List Song) :
    FilterProcessor.generateQueue p allSongs = generateQueueSpec p allSongs := by
  show (FilterProcessor.addSongsToQueue AddedVia.manual none p.manual_songs
      (FilterProcessor.addFilterSongs allSongs p.filters ([], 0))).1
    = withPositions 0 (queueEntries p allSongs)
  have h0 : (([], 0) : List QueueItem × Nat)
      = (withPositions 0 [], ([] : List QEntry).length) := rfl
  rw [h0, addFilterSongs_eq, addSongsToQueue_eq]
  rfl

theorem addEntries_nodup (via : AddedVia) (fid : Option String) (songs : List Song) :
    ∀ acc : List QEntry, (acc.map fun e => e.1.id).Nodup →
      ((addEntries via fid songs acc).map fun e => e.1.id).Nodup := by
  induction songs with
  | nil => intro acc h; exact h
  | cons s rest ih =>
    intro acc h
    simp only [addEntries]
    by_cases hdup : (acc.any fun e => e.1.id == s.id) = true
    · simpa [hdup] using ih acc h
    · have hb : (acc.any fun e => e.1.id == s.id) = false := Bool.not_eq_true _ |>.mp hdup
      have hnot : s.id ∉ acc.map fun e => e.1.id := by
        intro hmem
        rcases List.mem_map.mp hmem with ⟨e, he, hEq⟩
        exact hdup (List.any_eq_true.mpr ⟨e, he, by simp [hEq]⟩)
      have h2 : ((acc ++ [(s, via, fid)]).map fun e => e.1.id).Nodup := by
        have hmap : ((acc ++ [(s, via, fid)]).map fun e => e.1.id)
            = (acc.map fun e => e.1.id) ++ [s.id] := by simp
        rw [hmap]
        exact ((List.perm_append_singleton _ _).nodup_iff).mpr
          (List.nodup_cons.mpr ⟨hnot, h⟩)
      simpa [hb] using ih _ h2

theorem filterEntries_nodup (allSongs : List Song) (fs : List PlaylistFilter) :
    ∀ acc : List QEntry, (acc.map fun e => e.1.id).Nodup →
      ((filterEntries allSongs fs acc).map fun e => e.1.id).Nodup := by
  induction fs with
  | nil => intro acc h; exact h
  | cons f fs ih =>
    intro acc h
    exact ih _ (addEntries_nodup _ _ _ _ h)

theorem queueEntries_nodup (p : Playlist) (allSongs : List Song) :
    ((queueEntries p allSongs).map fun e => e.1.id).Nodup :=
  addEntries_nodup _ _ _ _ (filterEntries_nodup _ _ _ (by simp))

theorem generateQueue_songId_nodup (p : Playlist) (allSongs : List Song) :
    ((FilterProcessor.generateQueue p allSongs).map fun i => i.song.id).Nodup := by
  rw [generateQueue_eq_spec]
  show ((withPositions 0 (queueEntries p allSongs)).map fun i => i.song.id).Nodup
  rw [withPositions_map_songId]
  exact queueEntries_nodup p allSongs

/-! ## Lemmas: filter predicate model -/

theorem songMatches_false_not_mem (f : SongsFilters) (s : Song) (C : List Song)
    (h : songMatches f s = false) : s ∉ FilterProcessor.applyFilters C f := by
  intro hmem
  rw [FilterProcessor.applyFilters] at hmem
  have := (List.mem_filter.mp hmem).2
  rw [h] at this
  exact Bool.false_ne_true this

theorem min_or_max_fails (a b : ℚ) (hba : b < a) (v : Option ℚ) :
    minFilterFails (some a) v = true ∨ maxFilterFails (some b) v = true := by
  cases v with
  | none => exact Or.inl rfl
  | some x =>
    by_cases hx : x < a
    · exact Or.inl (by simp [minFilterFails, hx])
    · right
      simp only [maxFilterFails, decide_eq_true_eq]
      push_neg at hx
      linarith

/-! ## Lemmas: playback sequencer -/

theorem jsFindIndex_of_nodup (l : List QueueItem) :
    ∀ (i : Nat) (item : QueueItem), (l.map fun q => q.id).Nodup → l[i]? = some item →
      jsFindIndex (fun qi => qi.id == item.id) l = some i := by
  induction l with
  | nil => intro i item _ h; simp at h
  | cons x xs ih =>
    intro i item hnd hget
    rw [List.map_cons] at hnd
    rcases List.nodup_cons.mp hnd with ⟨hxnot, hnd'⟩
    cases i with
    | zero =>
      have hx : x = item := by simpa using hget
      subst hx
      simp [jsFindIndex]
    | succ j =>
      have hget' : xs[j]? = some item := by simpa using hget
      have hmem : item ∈ xs := by
        have := List.getElem?_eq_some.mp hget'
        rcases this with ⟨hj, hval⟩
        exact hval ▸ List.getElem_mem hj
      have hx : (x.id == item.id) = false := by
        refine beq_eq_false_iff_ne.mpr fun heq => hxnot ?_
        exact heq ▸ List.mem_map.mpr ⟨item, hmem, rfl⟩
      simp [jsFindIndex, hx, ih j item hnd' hget']

/-! ## Lemmas: query tree conversion -/

theorem reorder_perm (m : List RQBNode) :
    List.Perm (reorderRules m ++ reorderGroups m) (m.map reorderNode) := by
  induction m with
  | nil => simp [reorderRules, reorderGroups]
  | cons x xs ih =>
    cases x with
    | rule f o v n =>
      simp only [reorderRules, reorderGroups, List.map_cons, List.cons_append, reorderNode]
      exact List.Perm.cons _ ih
    | group c n l =>
      simp only [reorderRules, reorderGroups, List.map_cons]
      exact List.perm_middle.trans (List.Perm.cons _ ih)

theorem roundtrip_aux (l : List RQBNode) (hall : allUsableList l = true) :
    (processItems l).1.map ruleFromJSON = reorderRules l
    ∧ convertGroups (processItems l).2 = reorderGroups l := by
  have H : ∀ (k : Nat) (l : List RQBNode), sizeOf l ≤ k → allUsableList l = true →
      (processItems l).1.map ruleFromJSON = reorderRules l
      ∧ convertGroups (processItems l).2 = reorderGroups l := by
    intro k
    induction k with
    | zero =>
      intro l hsz _
      exfalso
      have : 1 ≤ sizeOf l := by cases l <;> simp_arith
      omega
    | succ k ihk =>
      intro l hsz hall
      cases l with
      | nil => simp [processItems, convertGroups, reorderRules, reorderGroups]
      | cons x xs =>
        have hx : allUsableNode x = true ∧ allUsableList xs = true := by
          simpa [allUsableList, Bool.and_eq_true] using hall
        have hxpos : 1 ≤ sizeOf x := by cases x <;> simp_arith
        have hcons : sizeOf (x :: xs) = 1 + sizeOf x + sizeOf xs := by simp
        have hszxs : sizeOf xs ≤ k := by omega
        cases x with
        | rule f o v n =>
          have hu : usableRule f v = true := by simpa [allUsableNode] using hx.1
          have ih := ihk xs hszxs hx.2
          constructor
          · simp [processItems, hu, ruleFromJSON, reorderRules, ih.1]
          · simp [processItems, hu, reorderGroups, ih.2]
        | group c n l' =>
          have hall' : allUsableList l' = true := by simpa [allUsableNode] using hx.1
          have hszl' : sizeOf l' ≤ k := by
            have hg : sizeOf (RQBNode.group c n l')
                = 1 + sizeOf c + sizeOf n + sizeOf l' := by simp
            omega
          have ihl' := ihk l' hszl' hall'
          have ihxs := ihk xs hszxs hx.2
          constructor
          · simp [processItems, reorderRules, ihxs.1]
          · simp [processItems, convertGroups, convertQueryJSONToRuleGroup, reorderGroups,
              reorderNode, ihxs.2, ihl'.1, ihl'.2]
  exact H (sizeOf l) l le_rfl hall

/-! ## Claim theorems -/

/-- Claim C1: for every playlist and catalog, the queue returned by
`FilterProcessor.generateQueue` contains no two items with equal
`song.id` (first occurrence wins, by the dedup check that scans saved
filters in playlist order and then manual songs in list order). -/
theorem claim_C1_queue_song_ids_distinct (p : Playlist) (allSongs : List Song) :
    List.Pairwise (fun a b => a.song.id ≠ b.song.id)
      (FilterProcessor.generateQueue p allSongs) := by
  have h := generateQueue_songId_nodup p allSongs
  rw [List.Nodup, List.pairwise_map] at h
  exact h

/-- Claim C2: `generateQueue` equals the spec's reference construction —
for each saved filter in playlist order, append the matching catalog
songs not yet present (provenance `filter`, that filter's id), then the
manual songs not yet present (provenance `manual`, no filter id), with
positions assigned sequentially from 0 so that each item's position is
its index; and on the concrete scenario (one Rock filter matching
[A, B] in catalog order, manual songs [B, C]) the queue is
[A (filter), B (filter), C (manual)]. -/
theorem claim_C2_generateQueue_matches_reference :
    (∀ (p : Playlist) (allSongs : List Song),
        FilterProcessor.generateQueue p allSongs = generateQueueSpec p allSongs
        ∧ ((FilterProcessor.generateQueue p allSongs).map fun i => i.position)
            = List.range (FilterProcessor.generateQueue p allSongs).length)
    ∧ ((FilterProcessor.generateQueue scenarioPlaylist scenarioCatalog).map
          fun i => (i.song.id, i.added_via, i.filter_id, i.position))
        = [(1, AddedVia.filter, some "rock-filter", 0),
           (2, AddedVia.filter, some "rock-filter", 1),
           (3, AddedVia.manual, Option.none, 2)] := by
  constructor
  · intro p allSongs
    refine ⟨generateQueue_eq_spec p allSongs, ?_⟩
    rw [generateQueue_eq_spec]
    show ((withPositions 0 (queueEntries p allSongs)).map fun i => i.position)
      = List.range (withPositions 0 (queueEntries p allSongs)).length
    rw [withPositions_map_position, withPositions_length, List.range_eq_range']
  · decide

/-- Claim C7 (amended): a song whose audio feature (energy, valence,
danceability, tempo) is missing never matches a predicate in which the
corresponding `_min` or `_max` bound is defined, so `applyFilters`
excludes it from every catalog; a song with null year fails an exact
year match against a defined **non-zero** year (the code guards the year
check by JavaScript truthiness, so the defined-but-falsy year 0 imposes
no constraint — see the counterexample for the claim as stated). -/
theorem claim_C7_missing_data_excludes (f : SongsFilters) (s : Song) :
    (∀ C : List Song, songMatches f s = false → s ∉ FilterProcessor.applyFilters C f)
    ∧ (s.energy = none → f.energy_min ≠ none ∨ f.energy_max ≠ none →
        songMatches f s = false)
    ∧ (s.valence = none → f.valence_min ≠ none ∨ f.valence_max ≠ none →
        songMatches f s = false)
    ∧ (s.danceability = none → f.danceability_min ≠ none ∨ f.danceability_max ≠ none →
        songMatches f s = false)
    ∧ (s.tempo = none → f.tempo_min ≠ none ∨ f.tempo_max ≠ none →
        songMatches f s = false)
    ∧ (s.year = none → ∀ y : Int, f.year = some y → y ≠ 0 →
        songMatches f s = false) := by
  refine ⟨fun C h => songMatches_false_not_mem f s C h, ?_, ?_, ?_, ?_, ?_⟩
  · intro he hb
    rcases hb with hmin | hmax
    · rcases Option.ne_none_iff_exists'.mp hmin with ⟨b, hb⟩
      simp [songMatches, minFilterFails, hb, he]
    · rcases Option.ne_none_iff_exists'.mp hmax with ⟨b, hb⟩
      simp [songMatches, maxFilterFails, hb, he]
  · intro he hb
    rcases hb with hmin | hmax
    · rcases Option.ne_none_iff_exists'.mp hmin with ⟨b, hb⟩
      simp [songMatches, minFilterFails, hb, he]
    · rcases Option.ne_none_iff_exists'.mp hmax with ⟨b, hb⟩
      simp [songMatches, maxFilterFails, hb, he]
  · intro he hb
    rcases hb with hmin | hmax
    · rcases Option.ne_none_iff_exists'.mp hmin with ⟨b, hb⟩
      simp [songMatches, minFilterFails, hb, he]
    · rcases Option.ne_none_iff_exists'.mp hmax with ⟨b, hb⟩
      simp [songMatches, maxFilterFails, hb, he]
  · intro he hb
    rcases hb with hmin | hmax
    · rcases Option.ne_none_iff_exists'.mp hmin with ⟨b, hb⟩
      simp [songMatches, minFilterFails, hb, he]
    · rcases Option.ne_none_iff_exists'.mp hmax with ⟨b, hb⟩
      simp [songMatches, maxFilterFails, hb, he]
  · intro hy y hfy hy0
    simp [songMatches, yearFilterFails, hfy, hy, hy0]

/-- Witness for C7: the concrete song with null energy never matches the
concrete predicate with a defined `energy_min`. -/
theorem claim_C7_missing_data_excludes_witness :
    songMatches fInvertedEnergy baseSong = false
    ∧ baseSong ∉ FilterProcessor.applyFilters [baseSong] fInvertedEnergy := by
  have h := claim_C7_missing_data_excludes fInvertedEnergy baseSong
  have hf : songMatches fInvertedEnergy baseSong = false :=
    h.2.1 rfl (Or.inl (by decide))
  exact ⟨hf, h.1 [baseSong] hf⟩

/-- Counterexample to C7 as stated: `songNullYear` has a null year and
`fYearZero` defines `year = 0`, yet the song matches the predicate and
survives `applyFilters` — a defined-but-falsy year imposes no
constraint, contradicting "a song with null year fails an exact year
match against a defined year". -/
theorem claim_C7_counterexample :
    songNullYear.year = Option.none ∧ fYearZero.year = some 0
    ∧ songMatches fYearZero songNullYear = true
    ∧ FilterProcessor.applyFilters [songNullYear] fYearZero = [songNullYear] := by
  refine ⟨rfl, rfl, by decide, by decide⟩

/-- Claim C8: a predicate in which both bounds of one audio-feature
range pair are defined with min > max matches no song: `applyFilters`
returns the empty list on every catalog, because the two bounds are
checked independently and no value satisfies both. -/
theorem claim_C8_inverted_range_matches_nothing (f : SongsFilters) (C : List Song)
    (h : (∃ a b, f.energy_min = some a ∧ f.energy_max = some b ∧ b < a)
       ∨ (∃ a b, f.valence_min = some a ∧ f.valence_max = some b ∧ b < a)
       ∨ (∃ a b, f.danceability_min = some a ∧ f.danceability_max = some b ∧ b < a)
       ∨ (∃ a b, f.tempo_min = some a ∧ f.tempo_max = some b ∧ b < a)) :
    FilterProcessor.applyFilters C f = [] := by
  rw [FilterProcessor.applyFilters, List.filter_eq_nil_iff]
  intro s _
  simp only [Bool.not_eq_true]
  rcases h with ⟨a, b, hmin, hmax, hba⟩ | ⟨a, b, hmin, hmax, hba⟩ |
    ⟨a, b, hmin, hmax, hba⟩ | ⟨a, b, hmin, hmax, hba⟩
  · rcases min_or_max_fails a b hba s.energy with hf | hf <;>
      simp [songMatches, hmin, hmax, hf]
  · rcases min_or_max_fails a b hba s.valence with hf | hf <;>
      simp [songMatches, hmin, hmax, hf]
  · rcases min_or_max_fails a b hba s.danceability with hf | hf <;>
      simp [songMatches, hmin, hmax, hf]
  · rcases min_or_max_fails a b hba s.tempo with hf | hf <;>
      simp [songMatches, hmin, hmax, hf]

/-- Witness for C8: the concrete inverted energy range (min 1 > max 0)
rejects a one-song catalog. -/
theorem claim_C8_inverted_range_matches_nothing_witness :
    FilterProcessor.applyFilters [baseSong] fInvertedEnergy = [] :=
  claim_C8_inverted_range_matches_nothing fInvertedEnergy [baseSong]
    (Or.inl ⟨1, 0, rfl, rfl, by norm_num⟩)

/-- Claim C3 (amended): `convertQueryToJSON` returns null exactly when
the tree has no child nodes at all (the top-level `rules` array is
empty); in particular a tree with zero rules and zero groups converts to
null. A tree whose children exist but are all skipped (unusable rules)
does NOT return null — see the counterexample. -/
theorem claim_C3_null_iff_no_children (c : String) (n : Bool) (l : List RQBNode) :
    convertQueryToJSON c n l = none ↔ l = [] := by
  cases l with
  | nil => simp [convertQueryToJSON]
  | cons x xs => simp [convertQueryToJSON]

/-- Counterexample to C3 as stated: a tree whose single child is a rule
with an empty value has zero usable rules and zero subgroups, yet
`convertQueryToJSON` returns a non-null `QueryJSON` (with empty rules
and groups) instead of the null sentinel. -/
theorem claim_C3_counterexample :
    usableRule "album" (JSValue.vStr "") = false
    ∧ convertQueryToJSON "and" false [emptyValueRule]
        = some (QueryJSON.mk "and" false [] []) := by
  have hu : usableRule "album" (JSValue.vStr "") = false := by decide
  refine ⟨hu, ?_⟩
  simp [convertQueryToJSON, processRuleGroup, processItems, emptyValueRule, hu]

/-- Claim C4 (amended): for a tree in which every rule (at any depth)
has a field and a usable value, and which contains at least one rule,
the backend round trip `convertQueryJSONToRuleGroup ∘ convertQueryToJSON`
yields the group with the same combinator and negation flag whose
children are the original children reordered rules-first (recursively);
since that reordering is a permutation at every node and fixes rule
nodes, the rule/group multiset (fields, operators, values, per-rule
negation) is preserved. Synthetic UI ids are regenerated and are not
part of the embedding. -/
theorem claim_C4_roundtrip_preserves_tree (c : String) (nf : Bool) (l : List RQBNode)
    (hall : allUsableList l = true) (hrule : hasRuleList l = true) :
    (convertQueryToJSON c nf l).map convertQueryJSONToRuleGroup
      = some (RQBNode.group c nf (reorderRules l ++ reorderGroups l))
    ∧ (∀ m : List RQBNode,
        List.Perm (reorderRules m ++ reorderGroups m) (m.map reorderNode))
    ∧ (∀ (f o : String) (v : JSValue) (neg : Bool),
        reorderNode (RQBNode.rule f o v neg) = RQBNode.rule f o v neg) := by
  have hne : l ≠ [] := by
    intro h
    subst h
    simp [hasRuleList] at hrule
  have haux := roundtrip_aux l hall
  refine ⟨?_, reorder_perm, fun f o v neg => by simp [reorderNode]⟩
  have hisEmpty : l.isEmpty = false := by
    cases l with
    | nil => exact absurd rfl hne
    | cons x xs => rfl
  simp [convertQueryToJSON, hisEmpty, processRuleGroup, convertQueryJSONToRuleGroup,
    haux.1, haux.2]

/-- Witness for C4: the concrete one-rule tree round-trips to itself
(its rules-first reordering). -/
theorem claim_C4_roundtrip_preserves_tree_witness :
    (convertQueryToJSON "and" false [daftRule]).map convertQueryJSONToRuleGroup
      = some (RQBNode.group "and" false (reorderRules [daftRule] ++ reorderGroups [daftRule])) := by
  have hu : usableRule "artist" (JSValue.vStr "Daft") = true := by decide
  exact (claim_C4_roundtrip_preserves_tree "and" false [daftRule]
    (by simp [allUsableList, allUsableNode, daftRule, hu])
    (by simp [hasRuleList, hasRuleNode, daftRule])).1

/-- Counterexample to C4 as stated: a tree with one usable rule and one
empty-valued rule (two distinct rule children) round-trips to a group
with a single rule child — the empty-valued rule's field, operator and
value are dropped, so the rule multiset is not preserved. -/
theorem claim_C4_counterexample :
    (convertQueryToJSON "and" false [daftRule, emptyValueRule]).map convertQueryJSONToRuleGroup
      = some (RQBNode.group "and" false [daftRule])
    ∧ [daftRule, emptyValueRule].length = 2
    ∧ daftRule ≠ emptyValueRule := by
  have hu1 : usableRule "artist" (JSValue.vStr "Daft") = true := by decide
  have hu2 : usableRule "album" (JSValue.vStr "") = false := by decide
  refine ⟨?_, rfl, ?_⟩
  · simp [convertQueryToJSON, processRuleGroup, processItems, daftRule, emptyValueRule,
      hu1, hu2, convertQueryJSONToRuleGroup, convertGroups, ruleFromJSON]
  · intro h
    rw [daftRule, emptyValueRule] at h
    injection h with h1 _ _ _
    exact absurd h1 (by decide)

/-- Claim C5: on a non-empty queue with a valid position and distinct
item ids, `playNext` leaves the position unchanged under repeat-one
(even with shuffle on, which never overrides single-repeat); with
shuffle off it advances by 1 when not at the last index, wraps to 0 from
the last index under repeat-all, and is a complete no-op from the last
index under repeat-none. -/
theorem claim_C5_playNext_transitions (s : SeqState) (rand : Nat)
    (hpos : s.currentPosition < s.queueItems.length)
    (hids : (s.queueItems.map fun q => q.id).Nodup) :
    (s.options.repeatMode = RepeatMode.one →
       (playNext s rand).currentPosition = s.currentPosition)
    ∧ (s.options.shuffle = false → s.options.repeatMode ≠ RepeatMode.one →
       s.currentPosition + 1 < s.queueItems.length →
       (playNext s rand).currentPosition = s.currentPosition + 1)
    ∧ (s.options.shuffle = false → s.options.repeatMode = RepeatMode.all →
       s.currentPosition + 1 = s.queueItems.length →
       (playNext s rand).currentPosition = 0)
    ∧ (s.options.shuffle = false → s.options.repeatMode = RepeatMode.none →
       s.currentPosition + 1 = s.queueItems.length →
       playNext s rand = s) := by
  have hlen0 : ¬s.queueItems.length = 0 := by omega
  refine ⟨?_, ?_, ?_, ?_⟩
  · intro hrep
    have hget : s.queueItems[s.currentPosition]? = some (s.queueItems[s.currentPosition]) :=
      List.getElem?_eq_getElem hpos
    have hfind := jsFindIndex_of_nodup s.queueItems s.currentPosition _ hids hget
    simp [playNext, playQueueItem, playSong, hlen0, hrep, hget, hfind]
  · intro hsh hrep hlt
    have hnle : ¬(s.queueItems.length ≤ s.currentPosition + 1) := by omega
    have hget : s.queueItems[s.currentPosition + 1]?
        = some (s.queueItems[s.currentPosition + 1]) := List.getElem?_eq_getElem hlt
    have hfind := jsFindIndex_of_nodup s.queueItems (s.currentPosition + 1) _ hids hget
    simp [playNext, playQueueItem, playSong, hlen0, hrep, hsh, hnle, hget, hfind]
  · intro hsh hrep heq
    have hne1 : ¬s.options.repeatMode = RepeatMode.one := by rw [hrep]; intro h; cases h
    have hle : s.queueItems.length ≤ s.currentPosition + 1 := by omega
    have h0 : 0 < s.queueItems.length := by omega
    have hget : s.queueItems[0]? = some (s.queueItems[0]) := List.getElem?_eq_getElem h0
    have hfind := jsFindIndex_of_nodup s.queueItems 0 _ hids hget
    simp [playNext, playQueueItem, playSong, hlen0, hne1, hrep, hsh, hle, hget, hfind]
  · intro hsh hrep heq
    have hne1 : ¬s.options.repeatMode = RepeatMode.one := by rw [hrep]; intro h; cases h
    have hneall : ¬s.options.repeatMode = RepeatMode.all := by rw [hrep]; intro h; cases h
    have hle : s.queueItems.length ≤ s.currentPosition + 1 := by omega
    simp [playNext, hlen0, hne1, hneall, hle]

/-- Witness for C5: on a concrete 3-item queue at position 1 with
repeat-one and shuffle on, `playNext` keeps the position at 1. -/
theorem claim_C5_playNext_transitions_witness :
    (playNext (mkSeqState 1 true RepeatMode.one) 2).currentPosition = 1 :=
  (claim_C5_playNext_transitions (mkSeqState 1 true RepeatMode.one) 2
    (by decide) (by decide)).1 rfl

/-- Claim C6 (amended): on a non-empty queue with a valid position and
distinct item ids, `playPrevious` decrements the position by 1; at
position 0 it wraps to the last index under repeat-all, and otherwise
clamps to index 0 — but that clamped branch is not a state no-op: it
replays the first item, re-setting the current song and forcing
`isPlaying = true`. -/
theorem claim_C6_playPrevious_transitions (s : SeqState)
    (hne : s.queueItems.length ≠ 0)
    (hpos : s.currentPosition < s.queueItems.length)
    (hids : (s.queueItems.map fun q => q.id).Nodup) :
    (s.currentPosition = 0 → s.options.repeatMode = RepeatMode.all →
       (playPrevious s).currentPosition = s.queueItems.length - 1)
    ∧ (s.currentPosition = 0 → s.options.repeatMode ≠ RepeatMode.all →
       (playPrevious s).currentPosition = 0
       ∧ (playPrevious s).currentSong = (s.queueItems[0]?).map (fun q => q.song)
       ∧ (playPrevious s).isPlaying = true)
    ∧ (0 < s.currentPosition →
       (playPrevious s).currentPosition = s.currentPosition - 1) := by
  refine ⟨?_, ?_, ?_⟩
  · intro h0 hall
    have hlt : s.queueItems.length - 1 < s.queueItems.length := by omega
    have hget : s.queueItems[s.queueItems.length - 1]?
        = some (s.queueItems[s.queueItems.length - 1]) := List.getElem?_eq_getElem hlt
    have hfind := jsFindIndex_of_nodup s.queueItems (s.queueItems.length - 1) _ hids hget
    simp [playPrevious, playQueueItem, playSong, hne, h0, hall, hget, hfind]
  · intro h0 hnall
    have hlt : 0 < s.queueItems.length := by omega
    have hget : s.queueItems[0]? = some (s.queueItems[0]) := List.getElem?_eq_getElem hlt
    have hfind := jsFindIndex_of_nodup s.queueItems 0 _ hids hget
    refine ⟨?_, ?_, ?_⟩ <;>
      simp [playPrevious, playQueueItem, playSong, hne, h0, hnall, hget, hfind]
  · intro h0
    have hne0 : ¬s.currentPosition = 0 := by omega
    have hlt : s.currentPosition - 1 < s.queueItems.length := by omega
    have hget : s.queueItems[s.currentPosition - 1]?
        = some (s.queueItems[s.currentPosition - 1]) := List.getElem?_eq_getElem hlt
    have hfind := jsFindIndex_of_nodup s.queueItems (s.currentPosition - 1) _ hids hget
    simp [playPrevious, playQueueItem, playSong, hne, hne0, hget, hfind]

/-- Witness for C6: on the concrete 3-item queue at position 0 with
repeat-all, `playPrevious` wraps to the last index. -/
theorem claim_C6_playPrevious_transitions_witness :
    (playPrevious (mkSeqState 0 false RepeatMode.all)).currentPosition
      = (mkSeqState 0 false RepeatMode.all).queueItems.length - 1 :=
  (claim_C6_playPrevious_transitions (mkSeqState 0 false RepeatMode.all)
    (by decide) (by decide) (by decide)).1 rfl rfl

/-- Counterexample to C6 as stated: at position 0 with repeat-none and
playback paused, `playPrevious` is not a no-op — it leaves the position
at 0 but replays the first item, flipping `isPlaying` from false to
true and setting the current song. -/
theorem claim_C6_counterexample :
    (mkSeqState 0 false RepeatMode.none).currentPosition = 0
    ∧ (mkSeqState 0 false RepeatMode.none).options.repeatMode = RepeatMode.none
    ∧ (mkSeqState 0 false RepeatMode.none).isPlaying = false
    ∧ (playPrevious (mkSeqState 0 false RepeatMode.none)).currentPosition = 0
    ∧ (playPrevious (mkSeqState 0 false RepeatMode.none)).isPlaying = true
    ∧ playPrevious (mkSeqState 0 false RepeatMode.none)
        ≠ mkSeqState 0 false RepeatMode.none := by
  decide

/-- Claim C9: on an empty queue, `playNext` and `playPrevious` are total
no-ops — they return the state unchanged (current song, position,
playing flag and options included) and, being total functions, never
throw. -/
theorem claim_C9_empty_queue_noop (s : SeqState) (rand : Nat)
    (h : s.queueItems = []) :
    playNext s rand = s ∧ playPrevious s = s := by
  have h0 : s.queueItems.length = 0 := by rw [h]; rfl
  exact ⟨by simp [playNext, h0], by simp [playPrevious, h0]⟩

/-- Witness for C9: the concrete empty sequencer state is fixed by both
operations. -/
theorem claim_C9_empty_queue_noop_witness :
    playNext emptySeqState 0 = emptySeqState ∧ playPrevious emptySeqState = emptySeqState :=
  claim_C9_empty_queue_noop emptySeqState 0 rfl

/-- Claim C10: a predicate field holding a falsy value — artist, album,
genre, tag, tag1 or tag2 equal to the empty string, or year equal to 0 —
imposes no constraint: `applyFilters` returns the whole catalog. -/
theorem claim_C10_falsy_filter_values_unconstrained (C : List Song) :
    FilterProcessor.applyFilters C { artist := some "" } = C
    ∧ FilterProcessor.applyFilters C { album := some "" } = C
    ∧ FilterProcessor.applyFilters C { genre := some "" } = C
    ∧ FilterProcessor.applyFilters C { tag := some "" } = C
    ∧ FilterProcessor.applyFilters C { tag1 := some "" } = C
    ∧ FilterProcessor.applyFilters C { tag2 := some "" } = C
    ∧ FilterProcessor.applyFilters C { year := some 0 } = C := by
  refine ⟨?_, ?_, ?_, ?_, ?_, ?_, ?_⟩ <;>
  · rw [FilterProcessor.applyFilters]
    refine List.filter_eq_self.mpr fun s _ => ?_
    simp [songMatches, textFilterFails, yearFilterFails, tagFilterFails,
      minFilterFails, maxFilterFails]

end SoundShare
